import Mathlib

/-!
Verification of the nfstest constant-table modules and of the decoding
contracts stated in the design specification.

The two source files are `packet/application/rpcordma_const.py` and
`packet/nfs/nlm4_const.py`: immutable tables mapping a protocol's wire-level
numeric codes to symbolic names, plus fixed size limits.  Each Python
dictionary is embedded as an association list of `(Nat × String)` pairs in
source order, and each module-level constant as a `Nat` definition with the
source's name.  The decoding engine (XDR codec, protocol decoders) is not
among the source files; where a claim is about it, the relevant operation is
modelled from the specification text and marked as such in its doc comment.
-/

/-! ## Constants of packet/nfs/nlm4_const.py -/

-- Enum nfs_bool
def FALSE : Nat := 0
def TRUE  : Nat := 1

def nfs_bool : List (Nat × String) := [
  (0, "FALSE"),
  (1, "TRUE")]

-- Sizes
def LM_MAXSTRLEN : Nat := 1024
def MAXNAMELEN   : Nat := 1025
def MAXNETOBJ_SZ : Nat := 1024

-- Enum nlm4_stats
def NLM4_GRANTED             : Nat := 0
def NLM4_DENIED              : Nat := 1
def NLM4_DENIED_NOLOCKS      : Nat := 2
def NLM4_BLOCKED             : Nat := 3
def NLM4_DENIED_GRACE_PERIOD : Nat := 4
def NLM4_DEADLCK             : Nat := 5
def NLM4_ROFS                : Nat := 6
def NLM4_STALE_FH            : Nat := 7
def NLM4_FBIG                : Nat := 8
def NLM4_FAILED              : Nat := 9

def nlm4_stats : List (Nat × String) := [
  (0, "NLM4_GRANTED"),
  (1, "NLM4_DENIED"),
  (2, "NLM4_DENIED_NOLOCKS"),
  (3, "NLM4_BLOCKED"),
  (4, "NLM4_DENIED_GRACE_PERIOD"),
  (5, "NLM4_DEADLCK"),
  (6, "NLM4_ROFS"),
  (7, "NLM4_STALE_FH"),
  (8, "NLM4_FBIG"),
  (9, "NLM4_FAILED")]

-- Enum fsh4_mode
def fsm_DN  : Nat := 0
def fsm_DR  : Nat := 1
def fsm_DW  : Nat := 2
def fsm_DRW : Nat := 3

def fsh4_mode : List (Nat × String) := [
  (0, "fsm_DN"),
  (1, "fsm_DR"),
  (2, "fsm_DW"),
  (3, "fsm_DRW")]

-- Enum fsh4_access
def fsa_NONE : Nat := 0
def fsa_R    : Nat := 1
def fsa_W    : Nat := 2
def fsa_RW   : Nat := 3

def fsh4_access : List (Nat × String) := [
  (0, "fsa_NONE"),
  (1, "fsa_R"),
  (2, "fsa_W"),
  (3, "fsa_RW")]

-- Enum nlm_proc4
def NLMPROC4_NULL        : Nat := 0
def NLMPROC4_TEST        : Nat := 1
def NLMPROC4_LOCK        : Nat := 2
def NLMPROC4_CANCEL      : Nat := 3
def NLMPROC4_UNLOCK      : Nat := 4
def NLMPROC4_GRANTED     : Nat := 5
def NLMPROC4_TEST_MSG    : Nat := 6
def NLMPROC4_LOCK_MSG    : Nat := 7
def NLMPROC4_CANCEL_MSG  : Nat := 8
def NLMPROC4_UNLOCK_MSG  : Nat := 9
def NLMPROC4_GRANTED_MSG : Nat := 10
def NLMPROC4_TEST_RES    : Nat := 11
def NLMPROC4_LOCK_RES    : Nat := 12
def NLMPROC4_CANCEL_RES  : Nat := 13
def NLMPROC4_UNLOCK_RES  : Nat := 14
def NLMPROC4_GRANTED_RES : Nat := 15
def NLMPROC4_SHARE       : Nat := 20
def NLMPROC4_UNSHARE     : Nat := 21
def NLMPROC4_NM_LOCK     : Nat := 22
def NLMPROC4_FREE_ALL    : Nat := 23

def nlm_proc4 : List (Nat × String) := [
  (0, "NLMPROC4_NULL"),
  (1, "NLMPROC4_TEST"),
  (2, "NLMPROC4_LOCK"),
  (3, "NLMPROC4_CANCEL"),
  (4, "NLMPROC4_UNLOCK"),
  (5, "NLMPROC4_GRANTED"),
  (6, "NLMPROC4_TEST_MSG"),
  (7, "NLMPROC4_LOCK_MSG"),
  (8, "NLMPROC4_CANCEL_MSG"),
  (9, "NLMPROC4_UNLOCK_MSG"),
  (10, "NLMPROC4_GRANTED_MSG"),
  (11, "NLMPROC4_TEST_RES"),
  (12, "NLMPROC4_LOCK_RES"),
  (13, "NLMPROC4_CANCEL_RES"),
  (14, "NLMPROC4_UNLOCK_RES"),
  (15, "NLMPROC4_GRANTED_RES"),
  (20, "NLMPROC4_SHARE"),
  (21, "NLMPROC4_UNSHARE"),
  (22, "NLMPROC4_NM_LOCK"),
  (23, "NLMPROC4_FREE_ALL")]

/-! ## Constants of packet/application/rpcordma_const.py -/

-- Enum rpc_rdma_errcode
def ERR_VERS  : Nat := 1
def ERR_CHUNK : Nat := 2

def rpc_rdma_errcode : List (Nat × String) := [
  (1, "ERR_VERS"),
  (2, "ERR_CHUNK")]

-- Enum rdma_proc
def RDMA_MSG   : Nat := 0
def RDMA_NOMSG : Nat := 1
def RDMA_MSGP  : Nat := 2
def RDMA_DONE  : Nat := 3
def RDMA_ERROR : Nat := 4

def rdma_proc : List (Nat × String) := [
  (0, "RDMA_MSG"),
  (1, "RDMA_NOMSG"),
  (2, "RDMA_MSGP"),
  (3, "RDMA_DONE"),
  (4, "RDMA_ERROR")]

/-! ## Table lookup

The Constant Tables interface of the specification:
`lookup(protocol, code) -> symbolic_name | None`.  A Python dictionary
access `table.get(code)` on an association-list embedding is a scan for
the first pair whose key equals the code. -/

def lookup (table : List (Nat × String)) (code : Nat) : Option String :=
  match table with
  | [] => none
  | (k, v) :: rest => if code = k then some v else lookup rest code

/-- The keys of a table, in source order. -/
def tableKeys (table : List (Nat × String)) : List Nat :=
  table.map Prod.fst

theorem lookup_eq_none_iff (table : List (Nat × String)) (code : Nat) :
    lookup table code = none ↔ code ∉ tableKeys table := by
  induction table with
  | nil => simp [lookup, tableKeys]
  | cons p rest ih =>
      obtain ⟨k, v⟩ := p
      by_cases hk : code = k
      · simp [lookup, hk, tableKeys]
      · simp [lookup, hk, tableKeys] at ih ⊢
        exact ih

theorem lookup_eq_some_iff (table : List (Nat × String))
    (h : (tableKeys table).Nodup) (code : Nat) (name : String) :
    lookup table code = some name ↔ (code, name) ∈ table := by
  induction table with
  | nil => simp [lookup]
  | cons p rest ih =>
      obtain ⟨k, v⟩ := p
      simp only [tableKeys, List.map_cons, List.nodup_cons] at h
      by_cases hk : code = k
      · subst hk
        have hv : lookup ((code, v) :: rest) code = some v := by simp [lookup]
        rw [hv]
        simp only [Option.some_inj, List.mem_cons, Prod.mk.injEq, eq_self_iff_true,
          true_and]
        constructor
        · rintro rfl; exact Or.inl rfl
        · rintro (rfl | hp)
          · rfl
          · exact absurd (List.mem_map_of_mem Prod.fst hp) h.1
      · have hv : lookup ((k, v) :: rest) code = lookup rest code := by
          simp [lookup, hk]
        rw [hv, ih h.2]
        simp only [List.mem_cons, Prod.mk.injEq]
        constructor
        · exact Or.inr
        · rintro (⟨h1, h2⟩ | hp)
          · exact absurd h1 hk
          · exact hp

/-- The symbolic names of a table, in source order. -/
def tableVals (table : List (Nat × String)) : List String :=
  table.map Prod.snd

theorem lookup_mem (table : List (Nat × String)) (code : Nat) (name : String)
    (h : lookup table code = some name) : (code, name) ∈ table := by
  induction table with
  | nil => simp [lookup] at h
  | cons p rest ih =>
      obtain ⟨k, v⟩ := p
      by_cases hk : code = k
      · subst hk
        have hv : some v = some name := by simpa [lookup] using h
        obtain rfl := Option.some_inj.mp hv
        exact List.mem_cons_self _ _
      · have hr : lookup rest code = some name := by simpa [lookup, hk] using h
        exact List.mem_cons_of_mem _ (ih hr)

theorem lookup_inj_of_vals_nodup (table : List (Nat × String))
    (h : (tableVals table).Nodup) (c1 c2 : Nat) (n : String)
    (h1 : lookup table c1 = some n) (h2 : lookup table c2 = some n) : c1 = c2 := by
  have m1 := lookup_mem table c1 n h1
  have m2 := lookup_mem table c2 n h2
  have heq := List.inj_on_of_nodup_map h m1 m2 rfl
  exact congrArg Prod.fst heq

/-! ## Claim theorems about the constant tables -/

/-- C1: for every protocol constant table (rdma_proc, rpc_rdma_errcode,
nlm4_stats, nlm_proc4, fsh4_mode, fsh4_access, nfs_bool) and every integer
code, `lookup` returns the symbolic name the table records for that code when
the code is a key of the table, and none when the code is not a key. -/
theorem constant_table_lookup_spec :
    (∀ code name, lookup rdma_proc code = some name ↔ (code, name) ∈ rdma_proc) ∧
    (∀ code, lookup rdma_proc code = none ↔ code ∉ tableKeys rdma_proc) ∧
    (∀ code name,
      lookup rpc_rdma_errcode code = some name ↔ (code, name) ∈ rpc_rdma_errcode) ∧
    (∀ code, lookup rpc_rdma_errcode code = none ↔ code ∉ tableKeys rpc_rdma_errcode) ∧
    (∀ code name, lookup nlm4_stats code = some name ↔ (code, name) ∈ nlm4_stats) ∧
    (∀ code, lookup nlm4_stats code = none ↔ code ∉ tableKeys nlm4_stats) ∧
    (∀ code name, lookup nlm_proc4 code = some name ↔ (code, name) ∈ nlm_proc4) ∧
    (∀ code, lookup nlm_proc4 code = none ↔ code ∉ tableKeys nlm_proc4) ∧
    (∀ code name, lookup fsh4_mode code = some name ↔ (code, name) ∈ fsh4_mode) ∧
    (∀ code, lookup fsh4_mode code = none ↔ code ∉ tableKeys fsh4_mode) ∧
    (∀ code name, lookup fsh4_access code = some name ↔ (code, name) ∈ fsh4_access) ∧
    (∀ code, lookup fsh4_access code = none ↔ code ∉ tableKeys fsh4_access) ∧
    (∀ code name, lookup nfs_bool code = some name ↔ (code, name) ∈ nfs_bool) ∧
    (∀ code, lookup nfs_bool code = none ↔ code ∉ tableKeys nfs_bool) :=
  ⟨lookup_eq_some_iff _ (by decide), lookup_eq_none_iff _,
   lookup_eq_some_iff _ (by decide), lookup_eq_none_iff _,
   lookup_eq_some_iff _ (by decide), lookup_eq_none_iff _,
   lookup_eq_some_iff _ (by decide), lookup_eq_none_iff _,
   lookup_eq_some_iff _ (by decide), lookup_eq_none_iff _,
   lookup_eq_some_iff _ (by decide), lookup_eq_none_iff _,
   lookup_eq_some_iff _ (by decide), lookup_eq_none_iff _⟩

/-- C5: the codes marked fixed for all versions have exactly the values the
rdma_proc table records: RDMA_MSG = 0, RDMA_NOMSG = 1, RDMA_ERROR = 4, and in
rpc_rdma_errcode ERR_VERS = 1; the tables map each such code back to its
symbolic name. -/
theorem fixed_for_all_versions_codes :
    RDMA_MSG = 0 ∧ RDMA_NOMSG = 1 ∧ RDMA_ERROR = 4 ∧ ERR_VERS = 1 ∧
    lookup rdma_proc RDMA_MSG = some "RDMA_MSG" ∧
    lookup rdma_proc RDMA_NOMSG = some "RDMA_NOMSG" ∧
    lookup rdma_proc RDMA_ERROR = some "RDMA_ERROR" ∧
    lookup rpc_rdma_errcode ERR_VERS = some "ERR_VERS" := by
  decide

/-- C6: the NLMv4 size-limit constants satisfy LM_MAXSTRLEN = 1024,
MAXNETOBJ_SZ = 1024 and MAXNAMELEN = LM_MAXSTRLEN + 1 = 1025 as exact
integer equalities. -/
theorem nlm4_size_limits :
    LM_MAXSTRLEN = 1024 ∧ MAXNETOBJ_SZ = 1024 ∧
    MAXNAMELEN = LM_MAXSTRLEN + 1 ∧ MAXNAMELEN = 1025 := by
  decide

/-- C8: each code-to-name table equals the association list built from the
module-level enum constants, pairing each constant value with exactly its
name; so the table contents and the named constants agree exactly. -/
theorem tables_match_constants :
    nfs_bool = [(FALSE, "FALSE"), (TRUE, "TRUE")] ∧
    nlm4_stats = [
      (NLM4_GRANTED, "NLM4_GRANTED"),
      (NLM4_DENIED, "NLM4_DENIED"),
      (NLM4_DENIED_NOLOCKS, "NLM4_DENIED_NOLOCKS"),
      (NLM4_BLOCKED, "NLM4_BLOCKED"),
      (NLM4_DENIED_GRACE_PERIOD, "NLM4_DENIED_GRACE_PERIOD"),
      (NLM4_DEADLCK, "NLM4_DEADLCK"),
      (NLM4_ROFS, "NLM4_ROFS"),
      (NLM4_STALE_FH, "NLM4_STALE_FH"),
      (NLM4_FBIG, "NLM4_FBIG"),
      (NLM4_FAILED, "NLM4_FAILED")] ∧
    fsh4_mode = [
      (fsm_DN, "fsm_DN"), (fsm_DR, "fsm_DR"),
      (fsm_DW, "fsm_DW"), (fsm_DRW, "fsm_DRW")] ∧
    fsh4_access = [
      (fsa_NONE, "fsa_NONE"), (fsa_R, "fsa_R"),
      (fsa_W, "fsa_W"), (fsa_RW, "fsa_RW")] ∧
    nlm_proc4 = [
      (NLMPROC4_NULL, "NLMPROC4_NULL"),
      (NLMPROC4_TEST, "NLMPROC4_TEST"),
      (NLMPROC4_LOCK, "NLMPROC4_LOCK"),
      (NLMPROC4_CANCEL, "NLMPROC4_CANCEL"),
      (NLMPROC4_UNLOCK, "NLMPROC4_UNLOCK"),
      (NLMPROC4_GRANTED, "NLMPROC4_GRANTED"),
      (NLMPROC4_TEST_MSG, "NLMPROC4_TEST_MSG"),
      (NLMPROC4_LOCK_MSG, "NLMPROC4_LOCK_MSG"),
      (NLMPROC4_CANCEL_MSG, "NLMPROC4_CANCEL_MSG"),
      (NLMPROC4_UNLOCK_MSG, "NLMPROC4_UNLOCK_MSG"),
      (NLMPROC4_GRANTED_MSG, "NLMPROC4_GRANTED_MSG"),
      (NLMPROC4_TEST_RES, "NLMPROC4_TEST_RES"),
      (NLMPROC4_LOCK_RES, "NLMPROC4_LOCK_RES"),
      (NLMPROC4_CANCEL_RES, "NLMPROC4_CANCEL_RES"),
      (NLMPROC4_UNLOCK_RES, "NLMPROC4_UNLOCK_RES"),
      (NLMPROC4_GRANTED_RES, "NLMPROC4_GRANTED_RES"),
      (NLMPROC4_SHARE, "NLMPROC4_SHARE"),
      (NLMPROC4_UNSHARE, "NLMPROC4_UNSHARE"),
      (NLMPROC4_NM_LOCK, "NLMPROC4_NM_LOCK"),
      (NLMPROC4_FREE_ALL, "NLMPROC4_FREE_ALL")] ∧
    rpc_rdma_errcode = [(ERR_VERS, "ERR_VERS"), (ERR_CHUNK, "ERR_CHUNK")] ∧
    rdma_proc = [
      (RDMA_MSG, "RDMA_MSG"),
      (RDMA_NOMSG, "RDMA_NOMSG"),
      (RDMA_MSGP, "RDMA_MSGP"),
      (RDMA_DONE, "RDMA_DONE"),
      (RDMA_ERROR, "RDMA_ERROR")] := by
  refine ⟨rfl, rfl, rfl, rfl, rfl, rfl, rfl⟩

/-- C9: every code-to-name table in both constant modules has pairwise
distinct symbolic names (and pairwise distinct keys), so a reverse lookup
from symbolic name to numeric code is a well-defined function: two codes
that look up to the same name are equal. -/
theorem tables_reverse_lookup_well_defined :
    (tableVals nfs_bool).Nodup ∧ (tableVals nlm4_stats).Nodup ∧
    (tableVals fsh4_mode).Nodup ∧ (tableVals fsh4_access).Nodup ∧
    (tableVals nlm_proc4).Nodup ∧ (tableVals rpc_rdma_errcode).Nodup ∧
    (tableVals rdma_proc).Nodup ∧
    (tableKeys nfs_bool).Nodup ∧ (tableKeys nlm4_stats).Nodup ∧
    (tableKeys fsh4_mode).Nodup ∧ (tableKeys fsh4_access).Nodup ∧
    (tableKeys nlm_proc4).Nodup ∧ (tableKeys rpc_rdma_errcode).Nodup ∧
    (tableKeys rdma_proc).Nodup ∧
    (∀ c1 c2 n, lookup nfs_bool c1 = some n → lookup nfs_bool c2 = some n → c1 = c2) ∧
    (∀ c1 c2 n, lookup nlm4_stats c1 = some n → lookup nlm4_stats c2 = some n → c1 = c2) ∧
    (∀ c1 c2 n, lookup fsh4_mode c1 = some n → lookup fsh4_mode c2 = some n → c1 = c2) ∧
    (∀ c1 c2 n, lookup fsh4_access c1 = some n → lookup fsh4_access c2 = some n → c1 = c2) ∧
    (∀ c1 c2 n, lookup nlm_proc4 c1 = some n → lookup nlm_proc4 c2 = some n → c1 = c2) ∧
    (∀ c1 c2 n,
      lookup rpc_rdma_errcode c1 = some n → lookup rpc_rdma_errcode c2 = some n → c1 = c2) ∧
    (∀ c1 c2 n, lookup rdma_proc c1 = some n → lookup rdma_proc c2 = some n → c1 = c2) :=
  ⟨by decide, by decide, by decide, by decide, by decide, by decide, by decide,
   by decide, by decide, by decide, by decide, by decide, by decide, by decide,
   fun c1 c2 n => lookup_inj_of_vals_nodup _ (by decide) c1 c2 n,
   fun c1 c2 n => lookup_inj_of_vals_nodup _ (by decide) c1 c2 n,
   fun c1 c2 n => lookup_inj_of_vals_nodup _ (by decide) c1 c2 n,
   fun c1 c2 n => lookup_inj_of_vals_nodup _ (by decide) c1 c2 n,
   fun c1 c2 n => lookup_inj_of_vals_nodup _ (by decide) c1 c2 n,
   fun c1 c2 n => lookup_inj_of_vals_nodup _ (by decide) c1 c2 n,
   fun c1 c2 n => lookup_inj_of_vals_nodup _ (by decide) c1 c2 n⟩

/-- Witness for C9 at a concrete input: codes 0 and 0 both looking up
NLMPROC4_NULL in nlm_proc4 are equal. -/
theorem tables_reverse_lookup_well_defined_witness :
    lookup nlm_proc4 0 = some "NLMPROC4_NULL" ∧ (0 : Nat) = 0 :=
  ⟨by decide,
   tables_reverse_lookup_well_defined.2.2.2.2.2.2.2.2.2.2.2.2.2.2.2.2.2.2.1
     0 0 "NLMPROC4_NULL" (by decide) (by decide)⟩

/-- C10: the key list of nlm_proc4 is exactly 0..15 followed by 20..23;
codes 16, 17, 18, 19 are absent (lookup returns none) while 20..23 are
present (lookup succeeds). -/
theorem nlm_proc4_key_gap :
    tableKeys nlm_proc4 =
      [0, 1, 2, 3, 4, 5, 6, 7, 8, 9, 10, 11, 12, 13, 14, 15, 20, 21, 22, 23] ∧
    lookup nlm_proc4 16 = none ∧ lookup nlm_proc4 17 = none ∧
    lookup nlm_proc4 18 = none ∧ lookup nlm_proc4 19 = none ∧
    (lookup nlm_proc4 20).isSome = true ∧ (lookup nlm_proc4 21).isSome = true ∧
    (lookup nlm_proc4 22).isSome = true ∧ (lookup nlm_proc4 23).isSome = true := by
  decide

/-! ## XDR codec, modelled from the specification

The XDR Codec, the Protocol Decoders and the RDMA framing decoder are part
of the repository core but not among the given source files; the definitions
below are modelled from the specification text (sections 4.1, 4.2, 4.4 and
7).  Bytes are `Nat` values below 256; a byte stream is a `List Nat`.  A
decoder consumes the stream from the front and returns the decoded value
together with the remaining bytes, the functional rendering of the
specification's `decode(bytes, cursor, type_descriptor) -> (value,
new_cursor)` contract. -/

/-- Modelled from the spec (section 7): the typed decode-error kinds. -/
inductive XdrError : Type where
  | truncatedData : XdrError
  | malformedEncoding : XdrError
  | lengthExceeded : XdrError
  | unknownUnionArm : XdrError
  | protocolViolation : XdrError
deriving DecidableEq, Repr

/-- Modelled from the spec: a 32-bit unsigned integer is encoded big-endian
in four bytes. -/
def encodeU32 (n : Nat) : List Nat :=
  [n / 2 ^ 24 % 256, n / 2 ^ 16 % 256, n / 2 ^ 8 % 256, n % 256]

/-- Modelled from the spec: read four big-endian bytes as a 32-bit unsigned
integer; fewer than four available bytes is TruncatedData. -/
def decodeU32 : List Nat → Except XdrError (Nat × List Nat)
  | b0 :: b1 :: b2 :: b3 :: rest =>
      .ok (b0 * 2 ^ 24 + b1 * 2 ^ 16 + b2 * 2 ^ 8 + b3, rest)
  | _ => .error .truncatedData

/-- Modelled from the spec: a 64-bit unsigned integer is two big-endian
32-bit halves, most significant first. -/
def encodeU64 (n : Nat) : List Nat :=
  encodeU32 (n / 2 ^ 32) ++ encodeU32 (n % 2 ^ 32)

def decodeU64 (bs : List Nat) : Except XdrError (Nat × List Nat) :=
  match decodeU32 bs with
  | .error e => .error e
  | .ok (hi, r1) =>
      match decodeU32 r1 with
      | .error e => .error e
      | .ok (lo, r2) => .ok (hi * 2 ^ 32 + lo, r2)

/-- Number of zero padding bytes needed after `n` data bytes to reach the
next 4-byte boundary. -/
def padLen (n : Nat) : Nat := (4 - n % 4) % 4

/-- Read exactly `n` bytes from the stream; TruncatedData when fewer are
available. -/
def readBytes : Nat → List Nat → Except XdrError (List Nat × List Nat)
  | 0, bs => .ok ([], bs)
  | _ + 1, [] => .error .truncatedData
  | n + 1, b :: bs =>
      match readBytes n bs with
      | .error e => .error e
      | .ok (xs, rest) => .ok (b :: xs, rest)

/-- Modelled from the spec: padding bytes must be zero; a non-zero padding
byte is MalformedEncoding, a missing one is TruncatedData. -/
def readPad : Nat → List Nat → Except XdrError (List Nat)
  | 0, bs => .ok bs
  | _ + 1, [] => .error .truncatedData
  | n + 1, b :: bs => if b = 0 then readPad n bs else .error .malformedEncoding

/-- Modelled from the spec: a variable-length opaque field carries an
explicit preceding 32-bit length, then the data, then zero padding to a
4-byte boundary. -/
def encodeOpaque (bs : List Nat) : List Nat :=
  encodeU32 bs.length ++ bs ++ List.replicate (padLen bs.length) 0

/-- Modelled from the spec: decoding a variable-length opaque field reads the
32-bit length, fails with LengthExceeded when it exceeds the
protocol-declared maximum, then reads the data and verifies the zero
padding. -/
def decodeOpaque (maxLen : Nat) (bs : List Nat) :
    Except XdrError (List Nat × List Nat) :=
  match decodeU32 bs with
  | .error e => .error e
  | .ok (len, r1) =>
      if maxLen < len then .error .lengthExceeded
      else
        match readBytes len r1 with
        | .error e => .error e
        | .ok (data, r2) =>
            match readPad (padLen len) r2 with
            | .error e => .error e
            | .ok r3 => .ok (data, r3)

theorem decodeU32_encodeU32 (n : Nat) (rest : List Nat) (h : n < 2 ^ 32) :
    decodeU32 (encodeU32 n ++ rest) = .ok (n, rest) := by
  simp only [encodeU32, List.cons_append, List.nil_append, decodeU32]
  congr 1
  congr 1
  omega

theorem decodeU64_encodeU64 (n : Nat) (rest : List Nat) (h : n < 2 ^ 64) :
    decodeU64 (encodeU64 n ++ rest) = .ok (n, rest) := by
  have hhi : n / 2 ^ 32 < 2 ^ 32 := by omega
  have hlo : n % 2 ^ 32 < 2 ^ 32 := by omega
  have hsplit : n / 2 ^ 32 * 2 ^ 32 + n % 2 ^ 32 = n := by omega
  simp only [encodeU64, decodeU64, List.append_assoc,
    decodeU32_encodeU32 _ _ hhi, decodeU32_encodeU32 _ _ hlo, hsplit]

theorem readBytes_append (bs tail : List Nat) :
    readBytes bs.length (bs ++ tail) = .ok (bs, tail) := by
  induction bs with
  | nil => simp [readBytes]
  | cons b bs ih => simp [readBytes, ih]

theorem readPad_replicate (k : Nat) (rest : List Nat) :
    readPad k (List.replicate k 0 ++ rest) = .ok rest := by
  induction k with
  | zero => simp [readPad]
  | succ k ih => simp [readPad, List.replicate_succ, ih]

theorem decodeOpaque_encodeOpaque (maxLen : Nat) (bs rest : List Nat)
    (hlen : bs.length ≤ maxLen) (h32 : bs.length < 2 ^ 32) :
    decodeOpaque maxLen (encodeOpaque bs ++ rest) = .ok (bs, rest) := by
  have hnot : ¬ maxLen < bs.length := not_lt_of_ge hlen
  simp only [encodeOpaque, decodeOpaque, List.append_assoc]
  rw [decodeU32_encodeU32 _ _ h32]
  simp only [hnot, if_false,
    readBytes_append bs (List.replicate (padLen bs.length) 0 ++ rest),
    readPad_replicate]

/-! ## XDR type descriptors and values

Modelled from the spec (sections 3 and 4.1): a declarative type descriptor
covering the primitives, variable-length opaque fields with a declared
maximum, optional values, nested records and discriminated unions.  Record
field lists and union arm lists are their own inductive types so that all
recursion below is structural. -/

mutual

inductive XdrType : Type where
  | tu32 : XdrType
  | tu64 : XdrType
  | tbool : XdrType
  | tbytes (maxLen : Nat) : XdrType
  | topt (elem : XdrType) : XdrType
  | trecord (fields : XdrFields) : XdrType
  | tunion (arms : XdrArms) : XdrType

inductive XdrFields : Type where
  | fnil : XdrFields
  | fcons (t : XdrType) (ts : XdrFields) : XdrFields

inductive XdrArms : Type where
  | anil : XdrArms
  | acons (tag : Nat) (t : XdrType) (rest : XdrArms) : XdrArms

end

mutual

inductive XdrValue : Type where
  | vu32 (n : Nat) : XdrValue
  | vu64 (n : Nat) : XdrValue
  | vbool (b : Bool) : XdrValue
  | vbytes (bytes : List Nat) : XdrValue
  | vnone : XdrValue
  | vsome (v : XdrValue) : XdrValue
  | vrecord (vs : XdrValues) : XdrValue
  | vunion (tag : Nat) (v : XdrValue) : XdrValue

inductive XdrValues : Type where
  | nil : XdrValues
  | cons (v : XdrValue) (vs : XdrValues) : XdrValues

end

/-! Validity of a value for a descriptor: integer ranges, opaque byte range
and declared maximum, matching record shapes, and a registered union tag. -/

mutual

def wf : XdrType → XdrValue → Bool
  | .tu32, .vu32 n => decide (n < 2 ^ 32)
  | .tu64, .vu64 n => decide (n < 2 ^ 64)
  | .tbool, .vbool _ => true
  | .tbytes maxLen, .vbytes bs =>
      decide (bs.length ≤ maxLen) && decide (bs.length < 2 ^ 32) &&
        bs.all (fun b => decide (b < 256))
  | .topt _, .vnone => true
  | .topt e, .vsome v => wf e v
  | .trecord fs, .vrecord vs => wfFields fs vs
  | .tunion arms, .vunion tag v => decide (tag < 2 ^ 32) && wfArm arms tag v
  | _, _ => false

def wfFields : XdrFields → XdrValues → Bool
  | .fnil, .nil => true
  | .fcons t ts, .cons v vs => wf t v && wfFields ts vs
  | _, _ => false

def wfArm : XdrArms → Nat → XdrValue → Bool
  | .anil, _, _ => false
  | .acons tg t rest, tag, v => if tag = tg then wf t v else wfArm rest tag v

end

/-! Encoding, modelled from the spec: big-endian integers, booleans as
0 or 1, length-prefixed padded opaques, optionals as a presence flag
followed by the value when present, records as the concatenation of their
fields, unions as the discriminant followed by the encoding of the arm
registered for it. -/

mutual

def encode : XdrType → XdrValue → List Nat
  | .tu32, .vu32 n => encodeU32 n
  | .tu64, .vu64 n => encodeU64 n
  | .tbool, .vbool b => encodeU32 (cond b 1 0)
  | .tbytes _, .vbytes bs => encodeOpaque bs
  | .topt _, .vnone => encodeU32 0
  | .topt e, .vsome v => encodeU32 1 ++ encode e v
  | .trecord fs, .vrecord vs => encodeFields fs vs
  | .tunion arms, .vunion tag v => encodeU32 tag ++ encodeArm arms tag v
  | _, _ => []

def encodeFields : XdrFields → XdrValues → List Nat
  | .fcons t ts, .cons v vs => encode t v ++ encodeFields ts vs
  | _, _ => []

def encodeArm : XdrArms → Nat → XdrValue → List Nat
  | .anil, _, _ => []
  | .acons tg t rest, tag, v => if tag = tg then encode t v else encodeArm rest tag v

end

/-! Decoding, modelled from the spec: unions decode the discriminant first
and dispatch to the arm registered for it, an unregistered discriminant is
UnknownUnionArm; a boolean or presence flag other than 0 or 1 is
MalformedEncoding. -/

mutual

def decode : XdrType → List Nat → Except XdrError (XdrValue × List Nat)
  | .tu32, bs =>
      match decodeU32 bs with
      | .error e => .error e
      | .ok (n, rest) => .ok (.vu32 n, rest)
  | .tu64, bs =>
      match decodeU64 bs with
      | .error e => .error e
      | .ok (n, rest) => .ok (.vu64 n, rest)
  | .tbool, bs =>
      match decodeU32 bs with
      | .error e => .error e
      | .ok (0, rest) => .ok (.vbool false, rest)
      | .ok (1, rest) => .ok (.vbool true, rest)
      | .ok (_, _) => .error .malformedEncoding
  | .tbytes maxLen, bs =>
      match decodeOpaque maxLen bs with
      | .error e => .error e
      | .ok (data, rest) => .ok (.vbytes data, rest)
  | .topt e, bs =>
      match decodeU32 bs with
      | .error er => .error er
      | .ok (0, rest) => .ok (.vnone, rest)
      | .ok (1, rest) =>
          match decode e rest with
          | .error er => .error er
          | .ok (v, r2) => .ok (.vsome v, r2)
      | .ok (_, _) => .error .malformedEncoding
  | .trecord fs, bs =>
      match decodeFields fs bs with
      | .error e => .error e
      | .ok (vs, rest) => .ok (.vrecord vs, rest)
  | .tunion arms, bs =>
      match decodeU32 bs with
      | .error e => .error e
      | .ok (tag, rest) => decodeArms arms tag rest

def decodeFields : XdrFields → List Nat → Except XdrError (XdrValues × List Nat)
  | .fnil, bs => .ok (.nil, bs)
  | .fcons t ts, bs =>
      match decode t bs with
      | .error e => .error e
      | .ok (v, r1) =>
          match decodeFields ts r1 with
          | .error e => .error e
          | .ok (vs, r2) => .ok (.cons v vs, r2)

def decodeArms : XdrArms → Nat → List Nat → Except XdrError (XdrValue × List Nat)
  | .anil, _, _ => .error .unknownUnionArm
  | .acons tg t rest, tag, bs =>
      if tag = tg then
        match decode t bs with
        | .error e => .error e
        | .ok (v, r) => .ok (.vunion tag v, r)
      else decodeArms rest tag bs

end

/-! ## Round-trip of the XDR codec -/

mutual

theorem decode_encode : ∀ (t : XdrType) (v : XdrValue) (rest : List Nat),
    wf t v = true → decode t (encode t v ++ rest) = Except.ok (v, rest)
  | .tu32, v, rest, h => by
      cases v with
      | vu32 n =>
          have hn : n < 2 ^ 32 := by simpa [wf] using h
          simp [decode, encode, decodeU32_encodeU32 n rest hn]
      | vu64 n => simp [wf] at h
      | vbool b => simp [wf] at h
      | vbytes bs => simp [wf] at h
      | vnone => simp [wf] at h
      | vsome v => simp [wf] at h
      | vrecord vs => simp [wf] at h
      | vunion tag v => simp [wf] at h
  | .tu64, v, rest, h => by
      cases v with
      | vu64 n =>
          have hn : n < 2 ^ 64 := by simpa [wf] using h
          simp [decode, encode, decodeU64_encodeU64 n rest hn]
      | vu32 n => simp [wf] at h
      | vbool b => simp [wf] at h
      | vbytes bs => simp [wf] at h
      | vnone => simp [wf] at h
      | vsome v => simp [wf] at h
      | vrecord vs => simp [wf] at h
      | vunion tag v => simp [wf] at h
  | .tbool, v, rest, h => by
      cases v with
      | vbool b =>
          cases b with
          | false =>
              simp [decode, encode, decodeU32_encodeU32 0 rest (by norm_num)]
          | true =>
              simp [decode, encode, decodeU32_encodeU32 1 rest (by norm_num)]
      | vu32 n => simp [wf] at h
      | vu64 n => simp [wf] at h
      | vbytes bs => simp [wf] at h
      | vnone => simp [wf] at h
      | vsome v => simp [wf] at h
      | vrecord vs => simp [wf] at h
      | vunion tag v => simp [wf] at h
  | .tbytes maxLen, v, rest, h => by
      cases v with
      | vbytes bs =>
          have hc : bs.length ≤ maxLen ∧ bs.length < 2 ^ 32 := by
            have hh := h
            simp only [wf, Bool.and_eq_true, decide_eq_true_eq] at hh
            exact ⟨hh.1.1, hh.1.2⟩
          simp [decode, encode, decodeOpaque_encodeOpaque maxLen bs rest hc.1 hc.2]
      | vu32 n => simp [wf] at h
      | vu64 n => simp [wf] at h
      | vbool b => simp [wf] at h
      | vnone => simp [wf] at h
      | vsome v => simp [wf] at h
      | vrecord vs => simp [wf] at h
      | vunion tag v => simp [wf] at h
  | .topt e, v, rest, h => by
      cases v with
      | vnone =>
          simp [decode, encode, decodeU32_encodeU32 0 rest (by norm_num)]
      | vsome v =>
          have h1 : wf e v = true := by simpa [wf] using h
          have hrec := decode_encode e v rest h1
          simp [decode, encode, List.append_assoc,
            decodeU32_encodeU32 1 (encode e v ++ rest) (by norm_num), hrec]
      | vu32 n => simp [wf] at h
      | vu64 n => simp [wf] at h
      | vbool b => simp [wf] at h
      | vbytes bs => simp [wf] at h
      | vrecord vs => simp [wf] at h
      | vunion tag v => simp [wf] at h
  | .trecord fs, v, rest, h => by
      cases v with
      | vrecord vs =>
          have h1 : wfFields fs vs = true := by simpa [wf] using h
          have hrec := decodeFields_encodeFields fs vs rest h1
          simp [decode, encode, hrec]
      | vu32 n => simp [wf] at h
      | vu64 n => simp [wf] at h
      | vbool b => simp [wf] at h
      | vbytes bs => simp [wf] at h
      | vnone => simp [wf] at h
      | vsome v => simp [wf] at h
      | vunion tag v => simp [wf] at h
  | .tunion arms, v, rest, h => by
      cases v with
      | vunion tag v =>
          have hc : tag < 2 ^ 32 ∧ wfArm arms tag v = true := by
            have hh := h
            simp only [wf, Bool.and_eq_true, decide_eq_true_eq] at hh
            exact hh
          have hrec := decodeArms_encodeArm arms tag v rest hc.2
          simp [decode, encode, List.append_assoc,
            decodeU32_encodeU32 tag (encodeArm arms tag v ++ rest) hc.1, hrec]
      | vu32 n => simp [wf] at h
      | vu64 n => simp [wf] at h
      | vbool b => simp [wf] at h
      | vbytes bs => simp [wf] at h
      | vnone => simp [wf] at h
      | vsome v => simp [wf] at h
      | vrecord vs => simp [wf] at h

theorem decodeFields_encodeFields : ∀ (fs : XdrFields) (vs : XdrValues)
    (rest : List Nat), wfFields fs vs = true →
    decodeFields fs (encodeFields fs vs ++ rest) = Except.ok (vs, rest)
  | .fnil, .nil, rest, _ => by simp [decodeFields, encodeFields]
  | .fnil, .cons v vs, rest, h => by simp [wfFields] at h
  | .fcons t ts, .nil, rest, h => by simp [wfFields] at h
  | .fcons t ts, .cons v vs, rest, h => by
      have hc : wf t v = true ∧ wfFields ts vs = true := by
        simpa [wfFields, Bool.and_eq_true] using h
      have hv := decode_encode t v (encodeFields ts vs ++ rest) hc.1
      have hvs := decodeFields_encodeFields ts vs rest hc.2
      simp [decodeFields, encodeFields, List.append_assoc, hv, hvs]

theorem decodeArms_encodeArm : ∀ (arms : XdrArms) (tag : Nat) (v : XdrValue)
    (rest : List Nat), wfArm arms tag v = true →
    decodeArms arms tag (encodeArm arms tag v ++ rest) =
      Except.ok (XdrValue.vunion tag v, rest)
  | .anil, tag, v, rest, h => by simp [wfArm] at h
  | .acons tg t arms0, tag, v, rest, h => by
      by_cases htag : tag = tg
      · have h1 : wf t v = true := by simpa [wfArm, htag] using h
        have hrec := decode_encode t v rest h1
        simp [decodeArms, encodeArm, htag, hrec]
      · have h1 : wfArm arms0 tag v = true := by simpa [wfArm, htag] using h
        have hrec := decodeArms_encodeArm arms0 tag v rest h1
        simp [decodeArms, encodeArm, htag, hrec]

end

/-- C7: for every supported XDR type descriptor and every valid value of that
descriptor's type (primitives, nested records, unions, optional present and
absent fields), decoding the encoding of the value yields exactly the value
with no bytes left over. -/
theorem xdr_decode_encode_roundtrip (t : XdrType) (v : XdrValue)
    (h : wf t v = true) : decode t (encode t v) = Except.ok (v, []) := by
  have hmain := decode_encode t v [] h
  simpa using hmain

/-- A sample descriptor exercising a nested record, a union, an optional
present field, an optional absent field and primitives. -/
def sampleType : XdrType :=
  .trecord (.fcons .tu32 (.fcons (.topt .tbool) (.fcons (.topt .tu64)
    (.fcons (.tunion (.acons 5 (.tbytes 8) .anil))
    (.fcons (.trecord (.fcons .tu64 .fnil)) .fnil)))))

/-- A sample valid value of `sampleType`. -/
def sampleValue : XdrValue :=
  .vrecord (.cons (.vu32 7) (.cons (.vsome (.vbool true)) (.cons .vnone
    (.cons (.vunion 5 (.vbytes [1, 2, 3]))
    (.cons (.vrecord (.cons (.vu64 4294967296) .nil)) .nil)))))

/-- Witness for C7 at a concrete descriptor and value. -/
theorem xdr_decode_encode_roundtrip_witness :
    wf sampleType sampleValue = true ∧
    decode sampleType (encode sampleType sampleValue) =
      Except.ok (sampleValue, []) :=
  ⟨by decide, xdr_decode_encode_roundtrip sampleType sampleValue (by decide)⟩

/-! ## NLM opaque length limit -/

/-- Modelled from the spec: decoding an NLM opaque (netobj) field, whose
protocol-declared maximum is the MAXNETOBJ_SZ constant of nlm4_const.py. -/
def decodeNlmOpaque (bs : List Nat) : Except XdrError (List Nat × List Nat) :=
  decodeOpaque MAXNETOBJ_SZ bs

theorem readBytes_ne_lengthExceeded (n : Nat) (bs : List Nat) :
    readBytes n bs ≠ Except.error XdrError.lengthExceeded := by
  induction n generalizing bs with
  | zero => simp [readBytes]
  | succ n ih =>
      cases bs with
      | nil => simp [readBytes]
      | cons b bs =>
          simp only [readBytes]
          cases hrb : readBytes n bs with
          | error e =>
              have hne := ih bs
              rw [hrb] at hne
              simpa using hne
          | ok p => simp

theorem readPad_ne_lengthExceeded (n : Nat) (bs : List Nat) :
    readPad n bs ≠ Except.error XdrError.lengthExceeded := by
  induction n generalizing bs with
  | zero => simp [readPad]
  | succ n ih =>
      cases bs with
      | nil => simp [readPad]
      | cons b bs =>
          by_cases hb : b = 0
          · simpa [readPad, hb] using ih bs
          · simp [readPad, hb]

/-- C3: decoding an NLM opaque field whose declared (wire-encoded) length is
strictly greater than MAXNETOBJ_SZ = 1024 bytes fails with LengthExceeded;
for declared lengths of at most 1024 bytes the length check passes, so the
decode never yields LengthExceeded. -/
theorem nlm_opaque_length_limit (len : Nat) (tail : List Nat)
    (h32 : len < 2 ^ 32) :
    (MAXNETOBJ_SZ < len →
      decodeNlmOpaque (encodeU32 len ++ tail) =
        Except.error XdrError.lengthExceeded) ∧
    (len ≤ MAXNETOBJ_SZ →
      decodeNlmOpaque (encodeU32 len ++ tail) ≠
        Except.error XdrError.lengthExceeded) := by
  constructor
  · intro hgt
    simp [decodeNlmOpaque, decodeOpaque, decodeU32_encodeU32 len tail h32, hgt]
  · intro hle
    have hnot : ¬ MAXNETOBJ_SZ < len := not_lt_of_ge hle
    simp only [decodeNlmOpaque, decodeOpaque, decodeU32_encodeU32 len tail h32,
      hnot, if_false]
    cases hrb : readBytes len tail with
    | error e =>
        simp only [hrb]
        intro hc
        exact readBytes_ne_lengthExceeded len tail (hrb.trans hc)
    | ok p =>
        obtain ⟨data, r2⟩ := p
        simp only [hrb]
        cases hrp : readPad (padLen len) r2 with
        | error e =>
            simp only [hrp]
            intro hc
            have he : e = XdrError.lengthExceeded := by injection hc
            exact readPad_ne_lengthExceeded (padLen len) r2 (by rw [hrp, he])
        | ok r3 => simp [hrp]

/-- Witness for C3: declared length 1025 fails with LengthExceeded; declared
length 4 with its four data bytes present does not. -/
theorem nlm_opaque_length_limit_witness :
    MAXNETOBJ_SZ < 1025 ∧
    decodeNlmOpaque (encodeU32 1025 ++ []) =
      Except.error XdrError.lengthExceeded ∧
    decodeNlmOpaque (encodeU32 4 ++ [9, 9, 9, 9]) ≠
      Except.error XdrError.lengthExceeded :=
  ⟨by decide,
   (nlm_opaque_length_limit 1025 [] (by norm_num)).1 (by decide),
   (nlm_opaque_length_limit 4 [9, 9, 9, 9] (by norm_num)).2 (by decide)⟩

/-! ## Enum tolerance -/

/-- Modelled from the spec (section 4.2): resolving an enumerated field's raw
integer against its Constant Table; a code absent from the table gets a
synthesized UNKNOWN(n) label instead of failing. -/
def resolveEnum (table : List (Nat × String)) (n : Nat) : String :=
  match lookup table n with
  | some name => name
  | none => "UNKNOWN(" ++ toString n ++ ")"

/-- Modelled from the spec: decoding a non-fixed enumerated field reads one
32-bit integer and resolves it against the protocol's Constant Table,
retaining the raw value alongside the resolved label. -/
def decodeEnum (table : List (Nat × String)) (bs : List Nat) :
    Except XdrError ((Nat × String) × List Nat) :=
  match decodeU32 bs with
  | .error e => .error e
  | .ok (n, rest) => .ok ((n, resolveEnum table n), rest)

/-- C4: for every non-fixed enumerated field and every raw integer code
absent from that field's constant table, decoding succeeds, retains the raw
value and labels it UNKNOWN(n); it does not raise or fail the decode. -/
theorem enum_unknown_tolerance (table : List (Nat × String)) (n : Nat)
    (rest : List Nat) (h32 : n < 2 ^ 32) (habs : lookup table n = none) :
    decodeEnum table (encodeU32 n ++ rest) =
      Except.ok ((n, "UNKNOWN(" ++ toString n ++ ")"), rest) := by
  simp [decodeEnum, resolveEnum, decodeU32_encodeU32 n rest h32, habs]

/-- Witness for C4: code 16 is absent from nlm_proc4; decoding it yields the
raw value with the UNKNOWN(16) label and does not fail. -/
theorem enum_unknown_tolerance_witness :
    lookup nlm_proc4 16 = none ∧
    decodeEnum nlm_proc4 (encodeU32 16 ++ []) =
      Except.ok ((16, "UNKNOWN(" ++ toString 16 ++ ")"), []) :=
  ⟨by decide, enum_unknown_tolerance nlm_proc4 16 [] (by norm_num) (by decide)⟩

/-! ## RPCoRDMA proc strictness -/

/-- Modelled from the spec (section 4.4): the decoded form of one RPCoRDMA
framing header; the per-proc body interpretation (inline stream, chunk
lists, error report) is abstracted as the remaining payload bytes. -/
inductive RdmaDecoded : Type where
  | msg (xid : Nat) (payload : List Nat) : RdmaDecoded
  | nomsg (xid : Nat) (payload : List Nat) : RdmaDecoded
  | err (xid : Nat) (payload : List Nat) : RdmaDecoded
deriving DecidableEq, Repr

/-- Modelled from the spec: the RPCoRDMA framing decoder is not among the
given sources.  It reads the header fields xid, vers, credit and proc as
32-bit integers; proc values RDMA_MSGP and RDMA_DONE fail fast with
ProtocolViolation before any interpretation of the remaining payload, as
does any proc value outside the rdma_proc table (proc is a
fixed-for-all-versions field). -/
def decodeRpcordma (bs : List Nat) : Except XdrError RdmaDecoded :=
  match decodeU32 bs with
  | .error e => .error e
  | .ok (xid, r1) =>
      match decodeU32 r1 with
      | .error e => .error e
      | .ok (_, r2) =>
          match decodeU32 r2 with
          | .error e => .error e
          | .ok (_, r3) =>
              match decodeU32 r3 with
              | .error e => .error e
              | .ok (proc, payload) =>
                  if proc = RDMA_MSGP ∨ proc = RDMA_DONE then
                    .error .protocolViolation
                  else if proc = RDMA_MSG then .ok (.msg xid payload)
                  else if proc = RDMA_NOMSG then .ok (.nomsg xid payload)
                  else if proc = RDMA_ERROR then .ok (.err xid payload)
                  else .error .protocolViolation

/-- C2: decoding an RPCoRDMA message whose proc field is RDMA_MSGP (2) or
RDMA_DONE (3) always fails with ProtocolViolation, whatever the remaining
payload is, so such a message is never interpreted. -/
theorem rdma_msgp_done_protocol_violation (xid vers credit proc : Nat)
    (payload : List Nat) (hx : xid < 2 ^ 32) (hv : vers < 2 ^ 32)
    (hc : credit < 2 ^ 32) (hp : proc = RDMA_MSGP ∨ proc = RDMA_DONE) :
    decodeRpcordma (encodeU32 xid ++ encodeU32 vers ++ encodeU32 credit ++
        encodeU32 proc ++ payload) =
      Except.error XdrError.protocolViolation := by
  have hproc : proc < 2 ^ 32 := by rcases hp with rfl | rfl <;> decide
  simp [decodeRpcordma, List.append_assoc, decodeU32_encodeU32 xid _ hx,
    decodeU32_encodeU32 vers _ hv, decodeU32_encodeU32 credit _ hc,
    decodeU32_encodeU32 proc _ hproc, hp]

/-- Witness for C2: a concrete header with proc = RDMA_MSGP fails with
ProtocolViolation. -/
theorem rdma_msgp_done_protocol_violation_witness :
    decodeRpcordma (encodeU32 1 ++ encodeU32 1 ++ encodeU32 0 ++
        encodeU32 RDMA_MSGP ++ [7, 7]) =
      Except.error XdrError.protocolViolation :=
  rdma_msgp_done_protocol_violation 1 1 0 RDMA_MSGP [7, 7] (by norm_num)
    (by norm_num) (by norm_num) (Or.inl rfl)
